import Mathlib

/-!
Shallow embedding of src/scripts/github_stats_cache.py (class GitHubStatsCache),
a file-based TTL cache.  Python values read from JSON files are modeled by the
inductive type Json; the filesystem is explicit state (directories, files keyed
by (directory, filename) pairs as produced by os.path.join, and a set of paths
whose removal raises PermissionError, modeling OS-level unlink restrictions).
Python exceptions are modeled by PyErr and Except.  Wall-clock instants are
integer ticks (seconds); datetime.isoformat / datetime.fromisoformat are modeled
as a decimal rendering of the tick count, keeping their essential contract:
rendering round-trips through parsing, and parsing fails on other strings.
-/

/-- Model of a parsed JSON document, the result of Python json.load. -/
inductive Json where
  | null : Json
  | bool (b : Bool) : Json
  | num (n : Int) : Json
  | str (s : String) : Json
  | arr (elems : List Json) : Json
  | obj (fields : List (String × Json)) : Json

/-- Raw content of a file on disk: either bytes that parse as JSON, or bytes
that do not (json.load raises JSONDecodeError on the latter). -/
inductive FileData where
  | valid (j : Json) : FileData
  | invalid (raw : String) : FileData

/-- Python exceptions relevant to the cache code. -/
inductive PyErr where
  | jsonDecodeError
  | keyError
  | valueError
  | typeError
  | fileNotFoundError
  | permissionError
  | isADirectoryError
deriving DecidableEq, Repr

/-- Filesystem path of a file, as built by os.path.join(directory, filename):
the directory part and the filename part. -/
abbrev FsPath := String × String

/-- Explicit filesystem state.  locked holds paths whose unlink raises
PermissionError (for example, files in a directory without write permission);
reading a locked file still succeeds. -/
structure FS where
  dirs : List String
  files : List (FsPath × FileData)
  locked : List FsPath

/-- Model of Python str.endswith, computed on the character list. -/
def strEndsWith (s sfx : String) : Bool :=
  sfx.data.isSuffixOf s.data

/-- Model of os.path.join for the cache's use (filename has no leading slash). -/
def joinPath (d f : String) : String :=
  if strEndsWith d "/" then d ++ f else d ++ "/" ++ f

/-- Content of the file at a path, if one exists. -/
def fsLookup (fs : FS) (p : FsPath) : Option FileData :=
  fs.files.lookup p

/-- Model of opening a path for writing and writing content: creates the file
or fully replaces the previous content at that path. -/
def fsWrite (fs : FS) (p : FsPath) (d : FileData) : FS :=
  { fs with files := (p, d) :: fs.files.filter (fun e => e.1 != p) }

/-- Model of os.remove: FileNotFoundError when no file exists at the path,
PermissionError when the OS forbids the unlink, otherwise the file is gone. -/
def os_remove (fs : FS) (p : FsPath) : Except PyErr FS :=
  if (fsLookup fs p).isNone then .error .fileNotFoundError
  else if p ∈ fs.locked then .error .permissionError
  else .ok { fs with files := fs.files.filter (fun e => e.1 != p) }

/-- Model of os.path.exists on a plain string path (true for directories and
for files whose joined path equals the string). -/
def os_path_exists (fs : FS) (p : String) : Bool :=
  fs.dirs.contains p || fs.files.any (fun e => joinPath e.1.1 e.1.2 == p)

/-- Model of os.path.exists applied to a joined (directory, filename) path. -/
def os_path_exists_file (fs : FS) (p : FsPath) : Bool :=
  (fsLookup fs p).isSome || fs.dirs.contains (joinPath p.1 p.2)

/-- Model of open(path) followed by json-source read: returns the raw file
content; IsADirectoryError if the path names a directory, FileNotFoundError
if nothing is there. -/
def openRead (fs : FS) (p : FsPath) : Except PyErr FileData :=
  match fsLookup fs p with
  | some d => .ok d
  | none =>
    if fs.dirs.contains (joinPath p.1 p.2) then .error .isADirectoryError
    else .error .fileNotFoundError

/-- Model of os.listdir: the filenames of the files directly under the
directory, FileNotFoundError when the directory does not exist. -/
def listdir (fs : FS) (dir : String) : Except PyErr (List String) :=
  if fs.dirs.contains dir then
    .ok (fs.files.filterMap (fun e => if e.1.1 == dir then some e.1.2 else none))
  else .error .fileNotFoundError

/-- Proper path segments of a directory path, shortest first, used to model
the intermediate directories that os.makedirs brings into existence. -/
def pathSegments (p : String) : List String :=
  (List.range (p.splitOn "/").length).map
    (fun i => String.intercalate "/" ((p.splitOn "/").take (i + 1)))

/-- Model of os.makedirs: records the directory and every missing parent
segment as existing. -/
def makedirs (fs : FS) (p : String) : FS :=
  { fs with dirs := fs.dirs ++ pathSegments p ++ [p] }

/-- Model of json.load applied to raw file content: the parsed document, or
JSONDecodeError when the bytes are not valid JSON. -/
def jsonLoad : FileData → Except PyErr Json
  | .valid j => .ok j
  | .invalid _ => .error .jsonDecodeError

/-- Lookup in a Python dict built by json.load from a JSON object: the value
at the key, the last duplicate winning as in json.loads. -/
def dictLookup (fields : List (String × Json)) (key : String) : Option Json :=
  fields.foldl (fun acc e => if e.1 = key then some e.2 else acc) none

/-- Model of the Python subscript cache_data[key] on a json.load result:
a dict yields the value at the key or KeyError; any non-dict value raises
TypeError. -/
def pySubscript (j : Json) (key : String) : Except PyErr Json :=
  match j with
  | .obj fields =>
    match dictLookup fields key with
    | some v => .ok v
    | none => .error .keyError
  | _ => .error .typeError

/-- Decimal digit characters, least value first. -/
def decChars : List Char := (List.range 10).map (fun n => Char.ofNat (48 + n))

/-- Character for a decimal digit value. -/
def digitCh (d : Nat) : Char := decChars.getD d '0'

/-- Numeric value of a decimal digit character, none for other characters. -/
def charVal (c : Char) : Option Nat :=
  if '0' ≤ c ∧ c ≤ '9' then some (c.toNat - 48) else none

/-- Decimal digits of a positive number, least significant first; fuel bounds
the recursion and any fuel at least n suffices. -/
def natDigitsAux : Nat → Nat → List Char
  | 0, _ => []
  | _ + 1, 0 => []
  | fuel + 1, n + 1 => digitCh ((n + 1) % 10) :: natDigitsAux fuel ((n + 1) / 10)

/-- Decimal rendering of a natural number, most significant digit first. -/
def renderNat (n : Nat) : List Char :=
  if n = 0 then ['0'] else (natDigitsAux n n).reverse

/-- Value of a least-significant-first digit character list; none when a
character is not a decimal digit. -/
def parseDigitsLSD : List Char → Option Nat
  | [] => some 0
  | c :: cs =>
    (charVal c).bind (fun d => (parseDigitsLSD cs).map (fun rest => d + 10 * rest))

/-- Parse a nonempty all-digit character list, most significant first. -/
def parseDecNat (cs : List Char) : Option Nat :=
  if cs.isEmpty then none else parseDigitsLSD cs.reverse

/-- Model of datetime.now().isoformat(): instants are integer ticks and the
serialized form is their signed decimal rendering. -/
def isoformat (t : Int) : String :=
  if t < 0 then String.mk ('-' :: renderNat t.natAbs) else String.mk (renderNat t.natAbs)

/-- Model of datetime.fromisoformat on a string: the parsed tick count, or
none for a string that is not a rendered instant (Python raises ValueError). -/
def parseTicks (s : String) : Option Int :=
  match s.data with
  | '-' :: rest => (parseDecNat rest).map (fun n => -(n : Int))
  | cs => (parseDecNat cs).map (fun n => (n : Int))

/-- Model of datetime.fromisoformat applied to the value read from the
timestamp field: TypeError on a non-string (as in Python), ValueError on an
unparseable string. -/
def fromisoformat (j : Json) : Except PyErr Int :=
  match j with
  | .str s =>
    match parseTicks s with
    | some t => .ok t
    | none => .error .valueError
  | _ => .error .typeError

/-- UTF-8 bytes of a code point, as in Python str.encode(). -/
def utf8Char (n : Nat) : List Nat :=
  if n < 0x80 then [n]
  else if n < 0x800 then
    [0xC0 + n / 64, 0x80 + n % 64]
  else if n < 0x10000 then
    [0xE0 + n / 4096, 0x80 + n / 64 % 64, 0x80 + n % 64]
  else
    [0xF0 + n / 262144, 0x80 + n / 4096 % 64, 0x80 + n / 64 % 64, 0x80 + n % 64]

/-- UTF-8 encoding of a string, as in Python str.encode(). -/
def utf8Bytes (s : String) : List Nat :=
  s.data.foldr (fun c acc => utf8Char c.toNat ++ acc) []

/-- Modulus of 32-bit words. -/
def w32 : Nat := 4294967296

/-- MD5 per-round shift amounts. -/
def md5s : List Nat :=
  [7, 12, 17, 22, 7, 12, 17, 22, 7, 12, 17, 22, 7, 12, 17, 22,
   5, 9, 14, 20, 5, 9, 14, 20, 5, 9, 14, 20, 5, 9, 14, 20,
   4, 11, 16, 23, 4, 11, 16, 23, 4, 11, 16, 23, 4, 11, 16, 23,
   6, 10, 15, 21, 6, 10, 15, 21, 6, 10, 15, 21, 6, 10, 15, 21]

/-- MD5 sine-derived round constants. -/
def md5K : List Nat :=
  [0xd76aa478, 0xe8c7b756, 0x242070db, 0xc1bdceee,
   0xf57c0faf, 0x4787c62a, 0xa8304613, 0xfd469501,
   0x698098d8, 0x8b44f7af, 0xffff5bb1, 0x895cd7be,
   0x6b901122, 0xfd987193, 0xa679438e, 0x49b40821,
   0xf61e2562, 0xc040b340, 0x265e5a51, 0xe9b6c7aa,
   0xd62f105d, 0x02441453, 0xd8a1e681, 0xe7d3fbc8,
   0x21e1cde6, 0xc33707d6, 0xf4d50d87, 0x455a14ed,
   0xa9e3e905, 0xfcefa3f8, 0x676f02d9, 0x8d2a4c8a,
   0xfffa3942, 0x8771f681, 0x6d9d6122, 0xfde5380c,
   0xa4beea44, 0x4bdecfa9, 0xf6bb4b60, 0xbebfbc70,
   0x289b7ec6, 0xeaa127fa, 0xd4ef3085, 0x04881d05,
   0xd9d4d039, 0xe6db99e5, 0x1fa27cf8, 0xc4ac5665,
   0xf4292244, 0x432aff97, 0xab9423a7, 0xfc93a039,
   0x655b59c3, 0x8f0ccc92, 0xffeff47d, 0x85845dd1,
   0x6fa87e4f, 0xfe2ce6e0, 0xa3014314, 0x4e0811a1,
   0xf7537e82, 0xbd3af235, 0x2ad7d2bb, 0xeb86d391]

/-- Left rotation of a 32-bit word. -/
def rotl32 (x c : Nat) : Nat :=
  (x * 2 ^ c + x / 2 ^ (32 - c)) % w32

/-- Bitwise complement within a 32-bit word. -/
def not32 (x : Nat) : Nat := Nat.xor x (w32 - 1)

/-- Little-endian 32-bit words of a byte list, four bytes per word. -/
def leWords : List Nat → List Nat
  | b0 :: b1 :: b2 :: b3 :: rest =>
    (b0 + 256 * b1 + 65536 * b2 + 16777216 * b3) :: leWords rest
  | _ => []

/-- MD5 nonlinear function and message index for round i on state (b, c, d). -/
def md5round (i b c d : Nat) : Nat × Nat :=
  if i < 16 then (Nat.lor (Nat.land b c) (Nat.land (not32 b) d), i)
  else if i < 32 then (Nat.lor (Nat.land d b) (Nat.land (not32 d) c), (5 * i + 1) % 16)
  else if i < 48 then (Nat.xor (Nat.xor b c) d, (3 * i + 5) % 16)
  else (Nat.xor c (Nat.lor b (not32 d)), (7 * i) % 16)

/-- One MD5 compression of a 16-word block into the running state. -/
def md5block (m : List Nat) (st : Nat × Nat × Nat × Nat) : Nat × Nat × Nat × Nat :=
  let (a0, b0, c0, d0) := st
  let (a, b, c, d) := (List.range 64).foldl
    (fun (s : Nat × Nat × Nat × Nat) i =>
      let (a, b, c, d) := s
      let (f, g) := md5round i b c d
      let f2 := (f + a + md5K.getD i 0 + m.getD g 0) % w32
      (d, (b + rotl32 f2 (md5s.getD i 0)) % w32, b, c))
    (a0, b0, c0, d0)
  ((a0 + a) % w32, (b0 + b) % w32, (c0 + c) % w32, (d0 + d) % w32)

/-- MD5 padding: a 0x80 byte, zeros to 56 mod 64, then the bit length as
eight little-endian bytes. -/
def md5pad (msg : List Nat) : List Nat :=
  let len := msg.length
  let z := (120 - (len + 1) % 64) % 64
  let bits := len * 8 % 2 ^ 64
  msg ++ [0x80] ++ List.replicate z 0 ++
    [bits % 256, bits / 2 ^ 8 % 256, bits / 2 ^ 16 % 256, bits / 2 ^ 24 % 256,
     bits / 2 ^ 32 % 256, bits / 2 ^ 40 % 256, bits / 2 ^ 48 % 256, bits / 2 ^ 56 % 256]

/-- Fold the MD5 compression over successive 64-byte blocks; fuel bounds the
recursion and any fuel at least the number of blocks suffices. -/
def md5blocks : Nat → List Nat → Nat × Nat × Nat × Nat → Nat × Nat × Nat × Nat
  | 0, _, st => st
  | _ + 1, [], st => st
  | fuel + 1, bytes, st => md5blocks fuel (bytes.drop 64) (md5block (leWords (bytes.take 64)) st)

/-- Little-endian bytes of a 32-bit word. -/
def wordBytes (wd : Nat) : List Nat :=
  [wd % 256, wd / 256 % 256, wd / 65536 % 256, wd / 16777216 % 256]

/-- Hexadecimal digit characters, least value first. -/
def hexChars : List Char :=
  (List.range 16).map (fun n => if n < 10 then Char.ofNat (48 + n) else Char.ofNat (87 + n))

/-- Lowercase hexadecimal character pair of a byte, then the rest. -/
def hexOfBytes : List Nat → List Char
  | [] => []
  | b :: bs => hexChars.getD (b / 16) '0' :: hexChars.getD (b % 16) '0' :: hexOfBytes bs

/-- Model of hashlib.md5(key.encode()).hexdigest(): the MD5 digest of the
UTF-8 bytes of the key, rendered as 32 lowercase hexadecimal characters. -/
def md5hex (key : String) : String :=
  let msg := md5pad (utf8Bytes key)
  let (a, b, c, d) :=
    md5blocks msg.length msg (0x67452301, 0xefcdab89, 0x98badcfe, 0x10325476)
  String.mk (hexOfBytes (wordBytes a ++ wordBytes b ++ wordBytes c ++ wordBytes d))

/-- Model of class GitHubStatsCache: the configuration held by an instance
(self.cache_dir and self.expiry_hours). -/
structure GitHubStatsCache where
  cache_dir : String
  expiry_hours : Int

/-- Model of GitHubStatsCache.__init__: records the configuration and creates
the cache directory when os.path.exists reports it missing. -/
def GitHubStatsCache.construct (cache_dir : String) (expiry_hours : Int) (fs : FS) :
    GitHubStatsCache × FS :=
  (⟨cache_dir, expiry_hours⟩,
   if os_path_exists fs cache_dir then fs else makedirs fs cache_dir)

/-- Model of GitHubStatsCache._get_cache_key: the MD5 hex digest of the
UTF-8 encoded key. -/
def GitHubStatsCache._get_cache_key (_c : GitHubStatsCache) (key : String) : String :=
  md5hex key

/-- Model of GitHubStatsCache._get_cache_path: os.path.join of the cache
directory and the digest with the json extension. -/
def GitHubStatsCache._get_cache_path (c : GitHubStatsCache) (key : String) : FsPath :=
  (c.cache_dir, c._get_cache_key key ++ ".json")

/-- Body of the try block in GitHubStatsCache.get: open and json.load the
file, read and parse the timestamp field, remove the file and yield none when
the age exceeds the expiry, otherwise yield the data field. -/
def GitHubStatsCache.getTry (c : GitHubStatsCache) (key : String) (now : Int) (fs : FS) :
    Except PyErr (Option Json × FS) := do
  let cache_path := c._get_cache_path key
  let raw ← openRead fs cache_path
  let cache_data ← jsonLoad raw
  let tsField ← pySubscript cache_data "timestamp"
  let cached_time ← fromisoformat tsField
  if now - cached_time > c.expiry_hours * 3600 then do
    let fs2 ← os_remove fs cache_path
    pure (none, fs2)
  else do
    let data ← pySubscript cache_data "data"
    pure (some data, fs)

/-- Model of GitHubStatsCache.get at wall-clock instant now: returns the
cached value when present and fresh, none when absent, expired or invalid;
the except clause catches JSONDecodeError, KeyError and ValueError only, and
then removes the file when it still exists. -/
def GitHubStatsCache.get (c : GitHubStatsCache) (key : String) (now : Int) (fs : FS) :
    Except PyErr (Option Json × FS) :=
  let cache_path := c._get_cache_path key
  if ¬ os_path_exists_file fs cache_path then .ok (none, fs)
  else
    match c.getTry key now fs with
    | .ok r => .ok r
    | .error e =>
      if e = .jsonDecodeError ∨ e = .keyError ∨ e = .valueError then
        if os_path_exists_file fs cache_path then
          match os_remove fs cache_path with
          | .ok fs2 => .ok (none, fs2)
          | .error e2 => .error e2
        else .ok (none, fs)
      else .error e

/-- Serialized record that GitHubStatsCache.set writes: a dict with the
isoformat timestamp and the data value, in that insertion order. -/
def cacheRecord (now : Int) (value : Json) : Json :=
  Json.obj [("timestamp", Json.str (isoformat now)), ("data", value)]

/-- Model of GitHubStatsCache.set at wall-clock instant now: writes the
timestamped record to the cache path, replacing any previous file there;
open for writing raises FileNotFoundError when the directory is absent. -/
def GitHubStatsCache.set (c : GitHubStatsCache) (key : String) (value : Json) (now : Int)
    (fs : FS) : Except PyErr FS :=
  if fs.dirs.contains c.cache_dir then
    .ok (fsWrite fs (c._get_cache_path key) (.valid (cacheRecord now value)))
  else .error .fileNotFoundError

/-- Loop body of GitHubStatsCache.clear: one listed filename is removed when
its name ends in the json extension, otherwise left alone. -/
def clearStep (dir : String) (acc : FS) (filename : String) : Except PyErr FS :=
  if strEndsWith filename ".json" then os_remove acc (dir, filename) else pure acc

/-- Model of GitHubStatsCache.clear: lists the cache directory and removes
every file whose name ends in the json extension. -/
def GitHubStatsCache.clear (c : GitHubStatsCache) (fs : FS) : Except PyErr FS := do
  let names ← listdir fs c.cache_dir
  names.foldlM (clearStep c.cache_dir) fs

/-- Entry-naming convention as the spec words it, for comparison with what
clear actually matches: a hex digest stem (32 lowercase hexadecimal
characters) followed by the json extension. -/
def specEntryNameConvention (filename : String) : Bool :=
  strEndsWith filename ".json" &&
    (let stem := filename.dropRight 5
     stem.length == 32 && stem.data.all (fun ch => hexChars.contains ch))

theorem digitCh_mem (d : Nat) : digitCh d ∈ decChars := by
  unfold digitCh
  rcases Nat.lt_or_ge d decChars.length with h | h
  · rw [List.getD_eq_getElem _ _ h]; exact List.getElem_mem h
  · rw [List.getD_eq_default _ _ h]; decide

theorem charVal_digitCh (d : Nat) (h : d < 10) : charVal (digitCh d) = some d := by
  interval_cases d <;> decide

theorem parseDigitsLSD_natDigitsAux (fuel : Nat) :
    ∀ n, n ≤ fuel → parseDigitsLSD (natDigitsAux fuel n) = some n := by
  induction fuel with
  | zero => intro n hn; interval_cases n; decide
  | succ f ih =>
    intro n hn
    match n with
    | 0 => simp [natDigitsAux, parseDigitsLSD]
    | m + 1 =>
      have hdiv : (m + 1) / 10 ≤ f := by omega
      simp [natDigitsAux, parseDigitsLSD, charVal_digitCh ((m + 1) % 10) (by omega),
        ih _ hdiv]
      omega

theorem natDigitsAux_mem (fuel : Nat) :
    ∀ n c, c ∈ natDigitsAux fuel n → c ∈ decChars := by
  induction fuel with
  | zero => intro n c hc; simp [natDigitsAux] at hc
  | succ f ih =>
    intro n c hc
    match n with
    | 0 => simp [natDigitsAux] at hc
    | m + 1 =>
      simp only [natDigitsAux, List.mem_cons] at hc
      rcases hc with hc | hc
      · exact hc ▸ digitCh_mem _
      · exact ih _ _ hc

theorem renderNat_mem (n : Nat) (c : Char) (hc : c ∈ renderNat n) : c ∈ decChars := by
  unfold renderNat at hc
  split at hc
  · simp at hc; subst hc; decide
  · exact natDigitsAux_mem _ _ _ (List.mem_reverse.mp hc)

theorem renderNat_ne_nil (n : Nat) : renderNat n ≠ [] := by
  unfold renderNat
  split
  · simp
  · rename_i h
    obtain ⟨m, rfl⟩ := Nat.exists_eq_succ_of_ne_zero h
    simp [natDigitsAux]

theorem parseDecNat_renderNat (n : Nat) : parseDecNat (renderNat n) = some n := by
  match n with
  | 0 => decide
  | m + 1 =>
    unfold parseDecNat
    rw [if_neg (by simpa using renderNat_ne_nil (m + 1))]
    unfold renderNat
    rw [if_neg (by omega), List.reverse_reverse]
    exact parseDigitsLSD_natDigitsAux _ _ (Nat.le_refl _)

theorem renderNat_head_ne_dash (n : Nat) (hd : Char) (tl : List Char)
    (h : renderNat n = hd :: tl) : hd ≠ '-' := by
  intro hcon
  have hm : hd ∈ renderNat n := by rw [h]; exact List.mem_cons_self _ _
  have := renderNat_mem n hd hm
  subst hcon
  simp only [decChars, List.mem_map, List.mem_range] at this
  obtain ⟨a, ha, hc⟩ := this
  interval_cases a <;> exact absurd hc (by decide)

theorem parseTicks_isoformat (t : Int) : parseTicks (isoformat t) = some t := by
  unfold isoformat
  split
  · rename_i hneg
    have habs : (t.natAbs : Int) = -t := by omega
    show parseTicks ⟨'-' :: renderNat t.natAbs⟩ = some t
    simp [parseTicks, parseDecNat_renderNat, habs]
  · rename_i hpos
    have habs : (t.natAbs : Int) = t := by omega
    rcases hr : renderNat t.natAbs with _ | ⟨hd, tl⟩
    · exact absurd hr (renderNat_ne_nil _)
    · show parseTicks ⟨hd :: tl⟩ = some t
      have hhd := renderNat_head_ne_dash _ _ _ hr
      unfold parseTicks
      split
      · rename_i rest heq
        have heq2 : hd :: tl = '-' :: rest := heq
        injection heq2 with h1 h2
        exact absurd h1 hhd
      · have hdata : (String.mk (hd :: tl)).data = hd :: tl := rfl
        rw [hdata, ← hr, parseDecNat_renderNat]
        simp [habs]

theorem fsLookup_write_self (fs : FS) (p : FsPath) (d : FileData) :
    fsLookup (fsWrite fs p d) p = some d := by
  simp [fsLookup, fsWrite, List.lookup]

theorem lookup_filter_ne (files : List (FsPath × FileData)) (q p : FsPath) (h : q ≠ p) :
    List.lookup q (files.filter (fun e => e.1 != p)) = List.lookup q files := by
  induction files with
  | nil => rfl
  | cons e rest ih =>
    by_cases he : e.1 = p
    · have hq : (q == p) = false := by simp [h]
      simp [List.filter, he, List.lookup, hq, ih]
    · have hne : (e.1 != p) = true := by simp [he]
      by_cases hqe : q = e.1
      · simp [List.filter, hne, List.lookup, hqe]
      · have hq : (q == e.1) = false := by simp [hqe]
        simp [List.filter, hne, List.lookup, hq, ih]

theorem fsLookup_write_other (fs : FS) (p q : FsPath) (d : FileData) (h : q ≠ p) :
    fsLookup (fsWrite fs p d) q = fsLookup fs q := by
  have hq : (q == p) = false := by simp [h]
  simp [fsLookup, fsWrite, List.lookup, hq, lookup_filter_ne _ _ _ h]

theorem pySubscript_record_ts (t : Int) (v : Json) :
    pySubscript (cacheRecord t v) "timestamp" = .ok (.str (isoformat t)) := rfl

theorem pySubscript_record_data (t : Int) (v : Json) :
    pySubscript (cacheRecord t v) "data" = .ok v := rfl

theorem fromisoformat_iso (t : Int) : fromisoformat (.str (isoformat t)) = .ok t := by
  simp [fromisoformat, parseTicks_isoformat]

theorem exists_file_of_lookup (fs : FS) (p : FsPath) (d : FileData)
    (h : fsLookup fs p = some d) : os_path_exists_file fs p = true := by
  simp [os_path_exists_file, h]

theorem getTry_fresh (c : GitHubStatsCache) (key : String) (now t : Int) (d : Json) (fs : FS)
    (hrec : fsLookup fs (c._get_cache_path key) = some (.valid (cacheRecord t d)))
    (hfresh : ¬ now - t > c.expiry_hours * 3600) :
    c.getTry key now fs = .ok (some d, fs) := by
  unfold GitHubStatsCache.getTry openRead
  dsimp only
  rw [hrec]
  simp [Bind.bind, Except.bind, jsonLoad, pySubscript_record_ts, pySubscript_record_data,
    fromisoformat_iso, hfresh, Pure.pure, Except.pure]

theorem getTry_expired (c : GitHubStatsCache) (key : String) (now t : Int) (d : Json) (fs : FS)
    (hrec : fsLookup fs (c._get_cache_path key) = some (.valid (cacheRecord t d)))
    (hexp : now - t > c.expiry_hours * 3600)
    (hlock : c._get_cache_path key ∉ fs.locked) :
    c.getTry key now fs =
      .ok (none, ⟨fs.dirs,
        fs.files.filter (fun e => e.1 != c._get_cache_path key), fs.locked⟩) := by
  unfold GitHubStatsCache.getTry openRead
  dsimp only
  rw [hrec]
  have hrm : os_remove fs (c._get_cache_path key) =
      .ok ⟨fs.dirs, fs.files.filter (fun e => e.1 != c._get_cache_path key), fs.locked⟩ := by
    simp [os_remove, hrec, hlock]
  simp [Bind.bind, Except.bind, jsonLoad, pySubscript_record_ts, fromisoformat_iso, hexp, hrm,
    Pure.pure, Except.pure]

theorem getTry_expired_locked (c : GitHubStatsCache) (key : String) (now t : Int) (d : Json)
    (fs : FS)
    (hrec : fsLookup fs (c._get_cache_path key) = some (.valid (cacheRecord t d)))
    (hexp : now - t > c.expiry_hours * 3600)
    (hlock : c._get_cache_path key ∈ fs.locked) :
    c.getTry key now fs = .error .permissionError := by
  unfold GitHubStatsCache.getTry openRead
  dsimp only
  rw [hrec]
  have hrm : os_remove fs (c._get_cache_path key) = .error .permissionError := by
    simp [os_remove, hrec, hlock]
  simp [Bind.bind, Except.bind, jsonLoad, pySubscript_record_ts, fromisoformat_iso, hexp, hrm]

theorem get_of_fresh (c : GitHubStatsCache) (key : String) (now t : Int) (d : Json) (fs : FS)
    (hrec : fsLookup fs (c._get_cache_path key) = some (.valid (cacheRecord t d)))
    (hfresh : ¬ now - t > c.expiry_hours * 3600) :
    c.get key now fs = .ok (some d, fs) := by
  unfold GitHubStatsCache.get
  dsimp only
  rw [exists_file_of_lookup _ _ _ hrec, getTry_fresh c key now t d fs hrec hfresh]
  simp

theorem get_of_expired (c : GitHubStatsCache) (key : String) (now t : Int) (d : Json) (fs : FS)
    (hrec : fsLookup fs (c._get_cache_path key) = some (.valid (cacheRecord t d)))
    (hexp : now - t > c.expiry_hours * 3600)
    (hlock : c._get_cache_path key ∉ fs.locked) :
    c.get key now fs =
      .ok (none, ⟨fs.dirs,
        fs.files.filter (fun e => e.1 != c._get_cache_path key), fs.locked⟩) := by
  unfold GitHubStatsCache.get
  dsimp only
  rw [exists_file_of_lookup _ _ _ hrec, getTry_expired c key now t d fs hrec hexp hlock]
  simp

/-- Structural invalidity of stored file content that get self-heals: bytes
that fail json.load, a JSON object with no timestamp field, a timestamp field
holding an unparseable string, or a record whose data field is missing (the
KeyError from the data subscript is caught when the entry is fresh, and the
expiry branch removes the file when it is stale; either way the file is gone
and the caller sees absent). -/
def corruptContent (cont : FileData) : Prop :=
  (∃ raw, cont = .invalid raw) ∨
  (∃ fields, cont = .valid (.obj fields) ∧ dictLookup fields "timestamp" = none) ∨
  (∃ fields s, cont = .valid (.obj fields) ∧ dictLookup fields "timestamp" = some (.str s) ∧
    parseTicks s = none) ∨
  (∃ fields s t, cont = .valid (.obj fields) ∧
    dictLookup fields "timestamp" = some (.str s) ∧ parseTicks s = some t ∧
    dictLookup fields "data" = none)

theorem getTry_corrupt (c : GitHubStatsCache) (key : String) (now : Int) (fs : FS)
    (cont : FileData)
    (hrec : fsLookup fs (c._get_cache_path key) = some cont)
    (hbad : (∃ raw, cont = .invalid raw) ∨
            (∃ fields, cont = .valid (.obj fields) ∧ dictLookup fields "timestamp" = none) ∨
            (∃ fields s, cont = .valid (.obj fields) ∧
              dictLookup fields "timestamp" = some (.str s) ∧ parseTicks s = none)) :
    ∃ e, c.getTry key now fs = .error e ∧
      (e = PyErr.jsonDecodeError ∨ e = PyErr.keyError ∨ e = PyErr.valueError) := by
  unfold GitHubStatsCache.getTry openRead
  dsimp only
  rw [hrec]
  rcases hbad with ⟨raw, rfl⟩ | ⟨fields, rfl, hts⟩ | ⟨fields, str0, rfl, hts, hparse⟩
  · exact ⟨.jsonDecodeError, by simp [Bind.bind, Except.bind, jsonLoad], by simp⟩
  · exact ⟨.keyError, by simp [Bind.bind, Except.bind, jsonLoad, pySubscript, hts], by simp⟩
  · exact ⟨.valueError,
      by simp [Bind.bind, Except.bind, jsonLoad, pySubscript, hts, fromisoformat, hparse],
      by simp⟩

theorem getTry_missing_data_expired (c : GitHubStatsCache) (key : String) (now t : Int)
    (fs : FS) (fields : List (String × Json)) (s : String)
    (hrec : fsLookup fs (c._get_cache_path key) = some (.valid (.obj fields)))
    (hts : dictLookup fields "timestamp" = some (.str s))
    (hparse : parseTicks s = some t)
    (hexp : now - t > c.expiry_hours * 3600)
    (hlock : c._get_cache_path key ∉ fs.locked) :
    c.getTry key now fs =
      .ok (none, ⟨fs.dirs,
        fs.files.filter (fun e => e.1 != c._get_cache_path key), fs.locked⟩) := by
  unfold GitHubStatsCache.getTry openRead
  dsimp only
  rw [hrec]
  have hrm : os_remove fs (c._get_cache_path key) =
      .ok ⟨fs.dirs, fs.files.filter (fun e => e.1 != c._get_cache_path key), fs.locked⟩ := by
    simp [os_remove, hrec, hlock]
  simp [Bind.bind, Except.bind, jsonLoad, pySubscript, hts, fromisoformat, hparse, hexp, hrm,
    Pure.pure, Except.pure]

theorem getTry_missing_data_expired_locked (c : GitHubStatsCache) (key : String)
    (now t : Int) (fs : FS) (fields : List (String × Json)) (s : String)
    (hrec : fsLookup fs (c._get_cache_path key) = some (.valid (.obj fields)))
    (hts : dictLookup fields "timestamp" = some (.str s))
    (hparse : parseTicks s = some t)
    (hexp : now - t > c.expiry_hours * 3600)
    (hlock : c._get_cache_path key ∈ fs.locked) :
    c.getTry key now fs = .error .permissionError := by
  unfold GitHubStatsCache.getTry openRead
  dsimp only
  rw [hrec]
  have hrm : os_remove fs (c._get_cache_path key) = .error .permissionError := by
    simp [os_remove, hrec, hlock]
  simp [Bind.bind, Except.bind, jsonLoad, pySubscript, hts, fromisoformat, hparse, hexp, hrm]

theorem getTry_missing_data_fresh (c : GitHubStatsCache) (key : String) (now t : Int)
    (fs : FS) (fields : List (String × Json)) (s : String)
    (hrec : fsLookup fs (c._get_cache_path key) = some (.valid (.obj fields)))
    (hts : dictLookup fields "timestamp" = some (.str s))
    (hparse : parseTicks s = some t)
    (hdata : dictLookup fields "data" = none)
    (hfresh : ¬ now - t > c.expiry_hours * 3600) :
    c.getTry key now fs = .error .keyError := by
  unfold GitHubStatsCache.getTry openRead
  dsimp only
  rw [hrec]
  simp [Bind.bind, Except.bind, jsonLoad, pySubscript, hts, fromisoformat, hparse, hfresh,
    hdata]

theorem get_of_corrupt_err (c : GitHubStatsCache) (key : String) (now : Int) (fs : FS)
    (cont : FileData)
    (hrec : fsLookup fs (c._get_cache_path key) = some cont)
    (hbad : (∃ raw, cont = .invalid raw) ∨
            (∃ fields, cont = .valid (.obj fields) ∧ dictLookup fields "timestamp" = none) ∨
            (∃ fields s, cont = .valid (.obj fields) ∧
              dictLookup fields "timestamp" = some (.str s) ∧ parseTicks s = none))
    (hlock : c._get_cache_path key ∉ fs.locked) :
    c.get key now fs =
      .ok (none, ⟨fs.dirs,
        fs.files.filter (fun e => e.1 != c._get_cache_path key), fs.locked⟩) := by
  obtain ⟨e, he, hcat⟩ := getTry_corrupt c key now fs cont hrec hbad
  unfold GitHubStatsCache.get
  dsimp only
  rw [exists_file_of_lookup _ _ _ hrec, he]
  have hrm : os_remove fs (c._get_cache_path key) =
      .ok ⟨fs.dirs, fs.files.filter (fun e => e.1 != c._get_cache_path key), fs.locked⟩ := by
    simp [os_remove, hrec, hlock]
  simp [hcat, exists_file_of_lookup _ _ _ hrec, hrm]

theorem get_of_corrupt_err_locked (c : GitHubStatsCache) (key : String) (now : Int)
    (fs : FS) (cont : FileData)
    (hrec : fsLookup fs (c._get_cache_path key) = some cont)
    (hbad : (∃ raw, cont = .invalid raw) ∨
            (∃ fields, cont = .valid (.obj fields) ∧ dictLookup fields "timestamp" = none) ∨
            (∃ fields s, cont = .valid (.obj fields) ∧
              dictLookup fields "timestamp" = some (.str s) ∧ parseTicks s = none))
    (hlock : c._get_cache_path key ∈ fs.locked) :
    c.get key now fs = .error .permissionError := by
  obtain ⟨e, he, hcat⟩ := getTry_corrupt c key now fs cont hrec hbad
  unfold GitHubStatsCache.get
  dsimp only
  rw [exists_file_of_lookup _ _ _ hrec, he]
  have hrm : os_remove fs (c._get_cache_path key) = .error .permissionError := by
    simp [os_remove, hrec, hlock]
  simp [hcat, exists_file_of_lookup _ _ _ hrec, hrm]

theorem get_of_missing_data (c : GitHubStatsCache) (key : String) (now t : Int) (fs : FS)
    (fields : List (String × Json)) (s : String)
    (hrec : fsLookup fs (c._get_cache_path key) = some (.valid (.obj fields)))
    (hts : dictLookup fields "timestamp" = some (.str s))
    (hparse : parseTicks s = some t)
    (hdata : dictLookup fields "data" = none)
    (hlock : c._get_cache_path key ∉ fs.locked) :
    c.get key now fs =
      .ok (none, ⟨fs.dirs,
        fs.files.filter (fun e => e.1 != c._get_cache_path key), fs.locked⟩) := by
  by_cases hexp : now - t > c.expiry_hours * 3600
  · unfold GitHubStatsCache.get
    dsimp only
    rw [exists_file_of_lookup _ _ _ hrec,
      getTry_missing_data_expired c key now t fs fields s hrec hts hparse hexp hlock]
    simp
  · unfold GitHubStatsCache.get
    dsimp only
    rw [exists_file_of_lookup _ _ _ hrec,
      getTry_missing_data_fresh c key now t fs fields s hrec hts hparse hdata hexp]
    have hrm : os_remove fs (c._get_cache_path key) =
        .ok ⟨fs.dirs, fs.files.filter (fun e => e.1 != c._get_cache_path key), fs.locked⟩ := by
      simp [os_remove, hrec, hlock]
    simp [exists_file_of_lookup _ _ _ hrec, hrm]

theorem get_of_missing_data_locked (c : GitHubStatsCache) (key : String) (now t : Int)
    (fs : FS) (fields : List (String × Json)) (s : String)
    (hrec : fsLookup fs (c._get_cache_path key) = some (.valid (.obj fields)))
    (hts : dictLookup fields "timestamp" = some (.str s))
    (hparse : parseTicks s = some t)
    (hdata : dictLookup fields "data" = none)
    (hlock : c._get_cache_path key ∈ fs.locked) :
    c.get key now fs = .error .permissionError := by
  by_cases hexp : now - t > c.expiry_hours * 3600
  · unfold GitHubStatsCache.get
    dsimp only
    rw [exists_file_of_lookup _ _ _ hrec,
      getTry_missing_data_expired_locked c key now t fs fields s hrec hts hparse hexp hlock]
    simp
  · unfold GitHubStatsCache.get
    dsimp only
    rw [exists_file_of_lookup _ _ _ hrec,
      getTry_missing_data_fresh c key now t fs fields s hrec hts hparse hdata hexp]
    have hrm : os_remove fs (c._get_cache_path key) = .error .permissionError := by
      simp [os_remove, hrec, hlock]
    simp [exists_file_of_lookup _ _ _ hrec, hrm]

theorem get_of_corrupt (c : GitHubStatsCache) (key : String) (now : Int) (fs : FS)
    (cont : FileData)
    (hrec : fsLookup fs (c._get_cache_path key) = some cont)
    (hbad : corruptContent cont)
    (hlock : c._get_cache_path key ∉ fs.locked) :
    c.get key now fs =
      .ok (none, ⟨fs.dirs,
        fs.files.filter (fun e => e.1 != c._get_cache_path key), fs.locked⟩) := by
  rcases hbad with h | h | h | ⟨fields, s, t, rfl, hts, hparse, hdata⟩
  · exact get_of_corrupt_err c key now fs cont hrec (Or.inl h) hlock
  · exact get_of_corrupt_err c key now fs cont hrec (Or.inr (Or.inl h)) hlock
  · exact get_of_corrupt_err c key now fs cont hrec (Or.inr (Or.inr h)) hlock
  · exact get_of_missing_data c key now t fs fields s hrec hts hparse hdata hlock

theorem get_of_corrupt_locked (c : GitHubStatsCache) (key : String) (now : Int) (fs : FS)
    (cont : FileData)
    (hrec : fsLookup fs (c._get_cache_path key) = some cont)
    (hbad : corruptContent cont)
    (hlock : c._get_cache_path key ∈ fs.locked) :
    c.get key now fs = .error .permissionError := by
  rcases hbad with h | h | h | ⟨fields, s, t, rfl, hts, hparse, hdata⟩
  · exact get_of_corrupt_err_locked c key now fs cont hrec (Or.inl h) hlock
  · exact get_of_corrupt_err_locked c key now fs cont hrec (Or.inr (Or.inl h)) hlock
  · exact get_of_corrupt_err_locked c key now fs cont hrec (Or.inr (Or.inr h)) hlock
  · exact get_of_missing_data_locked c key now t fs fields s hrec hts hparse hdata hlock

theorem get_of_expired_locked (c : GitHubStatsCache) (key : String) (now t : Int) (d : Json)
    (fs : FS)
    (hrec : fsLookup fs (c._get_cache_path key) = some (.valid (cacheRecord t d)))
    (hexp : now - t > c.expiry_hours * 3600)
    (hlock : c._get_cache_path key ∈ fs.locked) :
    c.get key now fs = .error .permissionError := by
  unfold GitHubStatsCache.get
  dsimp only
  rw [exists_file_of_lookup _ _ _ hrec,
    getTry_expired_locked c key now t d fs hrec hexp hlock]
  simp

/-- C1: for every key k and JSON-serializable value v, set(k, v) followed
immediately by get(k), with no time advance beyond the expiry duration and no
other mutation, returns v with found=true (the nonnegative expiry hypothesis
reflects that the configured expiry is a duration). -/
theorem set_then_get_returns_value (c : GitHubStatsCache) (key : String) (v : Json)
    (now : Int) (fs fs2 : FS) (hexp : 0 ≤ c.expiry_hours)
    (hset : c.set key v now fs = .ok fs2) :
    c.get key now fs2 = .ok (some v, fs2) := by
  unfold GitHubStatsCache.set at hset
  split at hset
  · injection hset with h
    subst h
    exact get_of_fresh c key now now v _ (fsLookup_write_self _ _ _) (by omega)
  · cases hset

/-- C2: an entry written at tick t and queried when its age strictly exceeds
the expiry duration is reported absent and its backing file is deleted, while
a query strictly before that age still returns the value. -/
theorem expiry_boundary (c : GitHubStatsCache) (key : String) (now t : Int) (d : Json)
    (fs : FS)
    (hrec : fsLookup fs (c._get_cache_path key) = some (.valid (cacheRecord t d)))
    (hlock : c._get_cache_path key ∉ fs.locked) :
    (now - t > c.expiry_hours * 3600 →
      c.get key now fs =
        .ok (none, ⟨fs.dirs,
          fs.files.filter (fun e => e.1 != c._get_cache_path key), fs.locked⟩)) ∧
    (now - t < c.expiry_hours * 3600 → c.get key now fs = .ok (some d, fs)) :=
  ⟨fun h => get_of_expired c key now t d fs hrec h hlock,
   fun h => get_of_fresh c key now t d fs hrec (by omega)⟩

/-- C10: an entry whose stored timestamp lies in the future relative to the
query instant is treated as fresh and returned with found=true, however far in
the future, because a negative age never strictly exceeds the nonnegative
expiry duration. -/
theorem future_timestamp_is_fresh (c : GitHubStatsCache) (key : String) (now t : Int)
    (d : Json) (fs : FS)
    (hrec : fsLookup fs (c._get_cache_path key) = some (.valid (cacheRecord t d)))
    (hexp : 0 ≤ c.expiry_hours) (hfut : now < t) :
    c.get key now fs = .ok (some d, fs) :=
  get_of_fresh c key now t d fs hrec (by omega)

theorem lookup_some_of_mem_keys (files : List (FsPath × FileData)) (p : FsPath)
    (h : p ∈ files.map Prod.fst) : ∃ v, List.lookup p files = some v := by
  induction files with
  | nil => simp at h
  | cons e rest ih =>
    by_cases hpe : p = e.1
    · exact ⟨e.2, by simp [List.lookup, hpe]⟩
    · have hq : (p == e.1) = false := by simp [hpe]
      have hmem : p ∈ rest.map Prod.fst := by
        rcases List.mem_cons.mp h with h1 | h1
        · exact absurd h1 hpe
        · exact h1
      obtain ⟨v, hv⟩ := ih hmem
      exact ⟨v, by simp [List.lookup, hq, hv]⟩

/-- C7: set writes to the single path determined by the key's digest and fully
replaces any prior content there, so after a successful set exactly one file
for that key exists and distinctness of file paths is preserved. -/
theorem set_overwrite_single_file (c : GitHubStatsCache) (key : String) (v : Json)
    (now : Int) (fs fs2 : FS)
    (hnodup : (fs.files.map Prod.fst).Nodup)
    (hset : c.set key v now fs = .ok fs2) :
    fsLookup fs2 (c._get_cache_path key) = some (.valid (cacheRecord now v)) ∧
    (fs2.files.filter (fun e => e.1 == c._get_cache_path key)).length = 1 ∧
    (fs2.files.map Prod.fst).Nodup := by
  unfold GitHubStatsCache.set at hset
  split at hset
  case isFalse => cases hset
  injection hset with h
  subst h
  refine ⟨fsLookup_write_self _ _ _, ?_, ?_⟩
  · have hnil : (fs.files.filter (fun e => e.1 != c._get_cache_path key)).filter
        (fun e => e.1 == c._get_cache_path key) = [] := by
      rw [List.filter_filter]
      rw [List.filter_eq_nil_iff]
      intro e _
      by_cases he : e.1 = c._get_cache_path key <;> simp [he]
    simp [fsWrite, List.filter, hnil]
  · simp only [fsWrite, List.map_cons]
    refine List.Nodup.cons ?_ ?_
    · intro hmem
      obtain ⟨e, hef, he1⟩ := List.mem_map.mp hmem
      have := List.of_mem_filter hef
      rw [he1] at this
      simp at this
    · exact List.Nodup.sublist (List.Sublist.map _ (List.filter_sublist _)) hnodup

theorem cache_path_ne_of_digest_ne (c : GitHubStatsCache) (k1 k2 : String)
    (h : c._get_cache_key k1 ≠ c._get_cache_key k2) :
    c._get_cache_path k1 ≠ c._get_cache_path k2 := by
  unfold GitHubStatsCache._get_cache_path
  intro hcon
  apply h
  have hsnd := congrArg Prod.snd hcon
  simp only at hsnd
  have hdata := congrArg String.data hsnd
  rw [String.data_append, String.data_append] at hdata
  have := List.append_cancel_right hdata
  cases hk1 : c._get_cache_key k1
  cases hk2 : c._get_cache_key k2
  rw [hk1, hk2] at this
  simp_all

/-- C6: for distinct keys whose digests differ, setting both keys yields a
state where each get returns its own value, and the second set leaves the
first key's entry file unchanged. -/
theorem distinct_keys_isolated (c : GitHubStatsCache) (k1 k2 : String) (v1 v2 : Json)
    (t1 t2 now : Int) (fs fs1 fs2 : FS)
    (hdig : c._get_cache_key k1 ≠ c._get_cache_key k2)
    (h1 : c.set k1 v1 t1 fs = .ok fs1)
    (h2 : c.set k2 v2 t2 fs1 = .ok fs2)
    (hf1 : now - t1 ≤ c.expiry_hours * 3600)
    (hf2 : now - t2 ≤ c.expiry_hours * 3600) :
    c.get k1 now fs2 = .ok (some v1, fs2) ∧
    c.get k2 now fs2 = .ok (some v2, fs2) ∧
    fsLookup fs2 (c._get_cache_path k1) = fsLookup fs1 (c._get_cache_path k1) := by
  have hne := cache_path_ne_of_digest_ne c k1 k2 hdig
  unfold GitHubStatsCache.set at h1 h2
  split at h1
  case isFalse => cases h1
  injection h1 with h1
  subst h1
  split at h2
  case isFalse => cases h2
  injection h2 with h2
  subst h2
  have hl1 : fsLookup (fsWrite (fsWrite fs (c._get_cache_path k1)
      (.valid (cacheRecord t1 v1))) (c._get_cache_path k2) (.valid (cacheRecord t2 v2)))
      (c._get_cache_path k1) = some (.valid (cacheRecord t1 v1)) := by
    rw [fsLookup_write_other _ _ _ _ hne, fsLookup_write_self]
  refine ⟨get_of_fresh c k1 now t1 v1 _ hl1 (by omega),
    get_of_fresh c k2 now t2 v2 _ (fsLookup_write_self _ _ _) (by omega),
    fsLookup_write_other _ _ _ _ hne⟩

theorem hexChars_getD_mem (n : Nat) : hexChars.getD n '0' ∈ hexChars := by
  rcases Nat.lt_or_ge n hexChars.length with h | h
  · rw [List.getD_eq_getElem _ _ h]; exact List.getElem_mem h
  · rw [List.getD_eq_default _ _ h]; decide

theorem mem_hexOfBytes (bs : List Nat) (ch : Char) (h : ch ∈ hexOfBytes bs) :
    ch ∈ hexChars := by
  induction bs with
  | nil => simp [hexOfBytes] at h
  | cons b rest ih =>
    simp only [hexOfBytes, List.mem_cons] at h
    rcases h with h | h | h
    · exact h ▸ hexChars_getD_mem _
    · exact h ▸ hexChars_getD_mem _
    · exact ih h

theorem hexOfBytes_length (bs : List Nat) : (hexOfBytes bs).length = 2 * bs.length := by
  induction bs with
  | nil => rfl
  | cons b rest ih => simp [hexOfBytes, ih]; omega

theorem md5hex_length (key : String) : (md5hex key).length = 32 := by
  unfold md5hex
  dsimp only
  rcases md5blocks (md5pad (utf8Bytes key)).length (md5pad (utf8Bytes key))
      (0x67452301, 0xefcdab89, 0x98badcfe, 0x10325476) with ⟨a, b, cc, dd⟩
  show (String.mk (hexOfBytes _)).length = 32
  rw [show ∀ l : List Char, (String.mk l).length = l.length from fun _ => rfl]
  rw [hexOfBytes_length]
  simp [wordBytes]

theorem md5hex_chars (key : String) (ch : Char) (h : ch ∈ (md5hex key).data) :
    ch ∈ hexChars := by
  unfold md5hex at h
  dsimp only at h
  rcases md5blocks (md5pad (utf8Bytes key)).length (md5pad (utf8Bytes key))
      (0x67452301, 0xefcdab89, 0x98badcfe, 0x10325476) with ⟨a, b, cc, dd⟩
  exact mem_hexOfBytes _ _ h

/-- C8: the key digest is a pure deterministic function of the key alone, the
same for any two store instances and computations, and consists of exactly 32
characters drawn from the lowercase hexadecimal alphabet. -/
theorem digest_deterministic_fixed_hex (c1 c2 : GitHubStatsCache) (key : String) :
    c1._get_cache_key key = c2._get_cache_key key ∧
    (c1._get_cache_key key).length = 32 ∧
    ∀ ch ∈ (c1._get_cache_key key).data, ch ∈ hexChars :=
  ⟨rfl, md5hex_length key, fun ch hc => md5hex_chars key ch hc⟩

/-- C9: construction records the configuration, touches neither files nor
permissions, ensures the cache directory exists afterward (creating it and its
parent segments when the existence test fails), and a second construction
against the resulting state changes nothing. -/
theorem construct_creates_dir_idempotent (d : String) (e : Int) (fs : FS) :
    (GitHubStatsCache.construct d e fs).1 = ⟨d, e⟩ ∧
    ((GitHubStatsCache.construct d e fs).2).files = fs.files ∧
    ((GitHubStatsCache.construct d e fs).2).locked = fs.locked ∧
    os_path_exists (GitHubStatsCache.construct d e fs).2 d = true ∧
    GitHubStatsCache.construct d e (GitHubStatsCache.construct d e fs).2 =
      (⟨d, e⟩, (GitHubStatsCache.construct d e fs).2) := by
  by_cases h : os_path_exists fs d
  · unfold GitHubStatsCache.construct
    simp [h]
  · have hmk : os_path_exists ⟨fs.dirs ++ (pathSegments d ++ [d]), fs.files, fs.locked⟩ d
        = true := by
      simp [os_path_exists]
    unfold GitHubStatsCache.construct
    simp [h, makedirs, hmk]

/-- Concrete store instance used in concrete evaluations. -/
def exC : GitHubStatsCache := ⟨".cache", 6⟩

/-- Cache path of the key k under the concrete store. -/
def exPath : FsPath := exC._get_cache_path "k"

/-- C3 (amended): for content that fails json.load, or a JSON object missing
a required field (timestamp or data), or a timestamp field holding an
unparseable string, get deletes the file, returns absent and propagates no
error; content that is valid JSON but not an object escapes this handling
(see the counterexample). -/
theorem corrupt_entry_selfheals (c : GitHubStatsCache) (key : String) (now : Int)
    (fs : FS) (cont : FileData)
    (hrec : fsLookup fs (c._get_cache_path key) = some cont)
    (hbad : corruptContent cont)
    (hlock : c._get_cache_path key ∉ fs.locked) :
    c.get key now fs =
      .ok (none, ⟨fs.dirs,
        fs.files.filter (fun e => e.1 != c._get_cache_path key), fs.locked⟩) :=
  get_of_corrupt c key now fs cont hrec hbad hlock

/-- C3 counterexample: a file holding the valid JSON document [] (a list, not
a record) makes get raise TypeError instead of self-healing: the except
clause catches only JSONDecodeError, KeyError and ValueError. -/
theorem get_on_list_content_raises :
    exC.get "k" 0 ⟨[".cache"], [(exPath, .valid (Json.arr []))], []⟩ =
      .error .typeError := by
  rfl

/-- C4 (amended): a delete triggered by expiry or corruption detection that
itself fails aborts get: the deletion error propagates to the caller, since
no except clause covers OS errors raised by os.remove. -/
theorem failing_cleanup_delete_aborts_get (c : GitHubStatsCache) (key : String)
    (now : Int) (fs : FS)
    (hbad : (∃ t d, fsLookup fs (c._get_cache_path key) = some (.valid (cacheRecord t d)) ∧
               now - t > c.expiry_hours * 3600) ∨
            (∃ cont, fsLookup fs (c._get_cache_path key) = some cont ∧ corruptContent cont))
    (hlock : c._get_cache_path key ∈ fs.locked) :
    c.get key now fs = .error .permissionError := by
  rcases hbad with ⟨t, d, hrec, hexp⟩ | ⟨cont, hrec, hcor⟩
  · exact get_of_expired_locked c key now t d fs hrec hexp hlock
  · exact get_of_corrupt_locked c key now fs cont hrec hcor hlock

/-- C4 counterexample: with an expired entry whose backing file the OS will
not unlink, get raises PermissionError rather than still returning absent. -/
theorem get_expired_locked_raises :
    exC.get "k" 30000 ⟨[".cache"], [(exPath, .valid (cacheRecord 0 Json.null))], [exPath]⟩ =
      .error .permissionError := by
  rfl

theorem clearFold_removes (dir : String) (names : List String) :
    ∀ fs : FS,
      (∀ n ∈ names, strEndsWith n ".json" = true →
        ((dir, n) ∈ fs.files.map Prod.fst ∧ (dir, n) ∉ fs.locked)) →
      names.Nodup →
      names.foldlM (clearStep dir) fs =
        .ok ⟨fs.dirs,
          fs.files.filter
            (fun e => !(e.1.1 == dir && names.contains e.1.2 && strEndsWith e.1.2 ".json")),
          fs.locked⟩ := by
  induction names with
  | nil =>
    intro fs _ _
    simp only [List.foldlM, List.contains_nil, Bool.false_and, Bool.and_false, Bool.not_false,
      List.filter_true]
    rfl
  | cons n0 rest ih =>
    intro fs hpres hnodup
    by_cases hjson : strEndsWith n0 ".json" = true
    · obtain ⟨hkey, hlock⟩ := hpres n0 (List.mem_cons_self _ _) hjson
      obtain ⟨v, hv⟩ := lookup_some_of_mem_keys _ _ hkey
      have hrm : clearStep dir fs n0 =
          .ok ⟨fs.dirs, fs.files.filter (fun e => e.1 != (dir, n0)), fs.locked⟩ := by
        simp [clearStep, hjson, os_remove, fsLookup, hv, hlock]
      have hpres1 : ∀ n ∈ rest, strEndsWith n ".json" = true →
          ((dir, n) ∈ (FS.mk fs.dirs (fs.files.filter (fun e => e.1 != (dir, n0)))
              fs.locked).files.map Prod.fst ∧
           (dir, n) ∉ (FS.mk fs.dirs (fs.files.filter (fun e => e.1 != (dir, n0)))
              fs.locked).locked) := by
        intro n hn hj
        obtain ⟨hk, hl⟩ := hpres n (List.mem_cons_of_mem _ hn) hj
        refine ⟨?_, hl⟩
        obtain ⟨e, hef, he1⟩ := List.mem_map.mp hk
        refine List.mem_map.mpr ⟨e, List.mem_filter.mpr ⟨hef, ?_⟩, he1⟩
        have hne : n ≠ n0 := fun hcon => (List.nodup_cons.mp hnodup).1 (hcon ▸ hn)
        simp [he1, hne]
      have hbody : List.foldlM (clearStep dir) fs (n0 :: rest) =
          List.foldlM (clearStep dir)
            ⟨fs.dirs, fs.files.filter (fun e => e.1 != (dir, n0)), fs.locked⟩ rest := by
        simp [List.foldlM, hrm, Bind.bind, Except.bind]
      rw [hbody, ih _ hpres1 (List.nodup_cons.mp hnodup).2]
      refine congrArg Except.ok ?_
      refine congrArg (fun l => FS.mk fs.dirs l fs.locked) ?_
      rw [List.filter_filter]
      refine List.filter_congr ?_
      rintro ⟨⟨ed, en⟩, ev⟩ hmem
      by_cases h1 : ed = dir
      · by_cases h2 : en = n0
        · simp [h1, h2, hjson]
        · simp [h1, h2]
      · have h1b : (ed == dir) = false := by simp [h1]
        have hp : ((ed, en) != (dir, n0)) = true := by simp [h1]
        simp [h1b, hp]
    · have hbody : List.foldlM (clearStep dir) fs (n0 :: rest) =
          List.foldlM (clearStep dir) fs rest := by
        simp [List.foldlM, clearStep, hjson, Bind.bind, Except.bind, Pure.pure, Except.pure]
      have hpres1 : ∀ n ∈ rest, strEndsWith n ".json" = true →
          ((dir, n) ∈ fs.files.map Prod.fst ∧ (dir, n) ∉ fs.locked) :=
        fun n hn hj => hpres n (List.mem_cons_of_mem _ hn) hj
      rw [hbody, ih _ hpres1 (List.nodup_cons.mp hnodup).2]
      refine congrArg Except.ok ?_
      refine congrArg (fun l => FS.mk fs.dirs l fs.locked) ?_
      refine List.filter_congr ?_
      rintro ⟨⟨ed, en⟩, ev⟩ hmem
      by_cases h2 : en = n0
      · simp [h2, hjson]
      · simp [h2]

theorem listed_mem_inv (dir : String) (files : List (FsPath × FileData)) (n : String)
    (h : n ∈ files.filterMap (fun e => if e.1.1 == dir then some e.1.2 else none)) :
    ∃ e ∈ files, e.1 = (dir, n) := by
  obtain ⟨e, hef, hcond⟩ := List.mem_filterMap.mp h
  refine ⟨e, hef, ?_⟩
  split at hcond
  · rename_i hd
    injection hcond with hn
    have hd2 : e.1.1 = dir := by simpa using hd
    calc e.1 = (e.1.1, e.1.2) := rfl
    _ = (dir, n) := by rw [hd2, hn]
  · cases hcond

theorem listed_contains_self (dir : String) (files : List (FsPath × FileData))
    (e : FsPath × FileData) (he : e ∈ files) (hd : e.1.1 = dir) :
    e.1.2 ∈ files.filterMap (fun x => if x.1.1 == dir then some x.1.2 else none) :=
  List.mem_filterMap.mpr ⟨e, he, by simp [hd]⟩

theorem listedNames_nodup (dir : String) (files : List (FsPath × FileData))
    (h : (files.map Prod.fst).Nodup) :
    (files.filterMap (fun e => if e.1.1 == dir then some e.1.2 else none)).Nodup := by
  induction files with
  | nil => simp
  | cons e rest ih =>
    have h2 : (e.1 :: rest.map Prod.fst).Nodup := by simpa using h
    have htail := (List.nodup_cons.mp h2).2
    have hhead := (List.nodup_cons.mp h2).1
    simp only [List.filterMap_cons]
    by_cases hd : (e.1.1 == dir) = true
    · rw [if_pos hd]
      refine List.Nodup.cons ?_ (ih htail)
      intro hmem
      obtain ⟨e2, he2, he21⟩ := listed_mem_inv dir rest e.1.2 hmem
      apply hhead
      refine List.mem_map.mpr ⟨e2, he2, ?_⟩
      rw [he21]
      have hd2 : e.1.1 = dir := by simpa using hd
      calc (dir, e.1.2) = (e.1.1, e.1.2) := by rw [hd2]
      _ = e.1 := rfl
    · rw [if_neg hd]
      exact ih htail

/-- C5 (amended): clear removes exactly the files directly under the cache
directory whose filename ends in the json extension (the code checks only the
extension, not the hex-digest stem), leaves every other file and the
directory itself in place, and succeeds on an empty directory. -/
theorem clear_removes_exactly_json (c : GitHubStatsCache) (fs : FS)
    (hdir : fs.dirs.contains c.cache_dir = true)
    (hnodup : (fs.files.map Prod.fst).Nodup)
    (hunlocked : ∀ e ∈ fs.files, e.1.1 = c.cache_dir → strEndsWith e.1.2 ".json" = true →
      e.1 ∉ fs.locked) :
    c.clear fs = .ok ⟨fs.dirs,
      fs.files.filter (fun e => !(e.1.1 == c.cache_dir && strEndsWith e.1.2 ".json")),
      fs.locked⟩ := by
  unfold GitHubStatsCache.clear listdir
  rw [if_pos hdir]
  simp only [Bind.bind, Except.bind]
  have hpres : ∀ n ∈ fs.files.filterMap
      (fun e => if e.1.1 == c.cache_dir then some e.1.2 else none),
      strEndsWith n ".json" = true →
      ((c.cache_dir, n) ∈ fs.files.map Prod.fst ∧ (c.cache_dir, n) ∉ fs.locked) := by
    intro n hn hj
    obtain ⟨e, hef, he1⟩ := listed_mem_inv _ _ _ hn
    constructor
    · exact List.mem_map.mpr ⟨e, hef, he1⟩
    · have := hunlocked e hef (by rw [he1]) (by rw [he1]; exact hj)
      rwa [he1] at this
  rw [clearFold_removes _ _ fs hpres (listedNames_nodup _ _ hnodup)]
  refine congrArg Except.ok ?_
  refine congrArg (fun l => FS.mk fs.dirs l fs.locked) ?_
  refine List.filter_congr ?_
  intro e he
  by_cases hd : e.1.1 = c.cache_dir
  · by_cases hj : strEndsWith e.1.2 ".json" = true
    · have hc : e.1.2 ∈ fs.files.filterMap
          (fun x => if x.1.1 == c.cache_dir then some x.1.2 else none) :=
        listed_contains_self _ _ _ he hd
      simp [hd, hj, hc]
      exact ⟨e.2, by rw [← hd]; exact he⟩
    · simp [hd, hj]
  · have hdb : (e.1.1 == c.cache_dir) = false := by simp [hd]
    simp [hdb]

/-- C5 counterexample: clear also removes a file named zz.json although that
name does not match the spec's entry-naming convention (a 32-character hex
digest stem), so an unrelated json file does not survive clear. -/
theorem clear_removes_nonconforming_file :
    specEntryNameConvention "zz.json" = false ∧
    GitHubStatsCache.clear ⟨".cache", 6⟩
      ⟨[".cache"], [(((".cache", "zz.json") : FsPath), .invalid "x")], []⟩ =
      .ok ⟨[".cache"], [], []⟩ :=
  ⟨by decide, by rfl⟩

/-- Empty filesystem with only the cache directory present. -/
def exFS0 : FS := ⟨[".cache"], [], []⟩

/-- State holding one entry for key k written at tick 0 with value 7. -/
def exRecFS : FS := ⟨[".cache"], [(exPath, .valid (cacheRecord 0 (Json.num 7)))], []⟩

/-- State holding one future-dated entry for key k. -/
def exFutFS : FS := ⟨[".cache"], [(exPath, .valid (cacheRecord 1000000 (Json.num 9)))], []⟩

/-- State holding one malformed entry file for key k. -/
def exBadFS : FS := ⟨[".cache"], [(exPath, .invalid "not json")], []⟩

/-- State holding one record for key k with a timestamp but no data field. -/
def exNoDataFS : FS :=
  ⟨[".cache"], [(exPath, .valid (Json.obj [("timestamp", Json.str (isoformat 0))]))], []⟩

/-- State holding one expired entry for key k whose file cannot be unlinked. -/
def exLockFS : FS := ⟨[".cache"], [(exPath, .valid (cacheRecord 0 Json.null))], [exPath]⟩

/-- State after setting key k1 at tick 1. -/
def exFS1 : FS := fsWrite exFS0 (exC._get_cache_path "k1") (.valid (cacheRecord 1 (Json.num 1)))

/-- State after then setting key k2 at tick 2. -/
def exFS2 : FS := fsWrite exFS1 (exC._get_cache_path "k2") (.valid (cacheRecord 2 (Json.num 2)))

/-- State with one conforming entry file and one unrelated text file. -/
def exMixFS : FS :=
  ⟨[".cache"], [((".cache", "a.json"), .invalid "x"), ((".cache", "b.txt"), .invalid "y")], []⟩

theorem set_then_get_returns_value_witness :
    exC.get "k" 5
        (fsWrite exFS0 (exC._get_cache_path "k") (.valid (cacheRecord 5 (Json.num 7)))) =
      .ok (some (Json.num 7),
        fsWrite exFS0 (exC._get_cache_path "k") (.valid (cacheRecord 5 (Json.num 7)))) :=
  set_then_get_returns_value exC "k" (Json.num 7) 5 exFS0 _ (by decide) rfl

theorem expiry_boundary_witness :
    exC.get "k" 30000 exRecFS =
      .ok (none, ⟨exRecFS.dirs,
        exRecFS.files.filter (fun e => e.1 != exC._get_cache_path "k"), exRecFS.locked⟩) ∧
    exC.get "k" 100 exRecFS = .ok (some (Json.num 7), exRecFS) := by
  have hrec : fsLookup exRecFS (exC._get_cache_path "k") =
      some (.valid (cacheRecord 0 (Json.num 7))) := by
    simp [exRecFS, exPath, fsLookup, List.lookup]
  have hlock : exC._get_cache_path "k" ∉ exRecFS.locked := by
    simp [exRecFS]
  exact ⟨(expiry_boundary exC "k" 30000 0 (Json.num 7) exRecFS hrec hlock).1 (by decide),
         (expiry_boundary exC "k" 100 0 (Json.num 7) exRecFS hrec hlock).2 (by decide)⟩

theorem future_timestamp_is_fresh_witness :
    exC.get "k" 0 exFutFS = .ok (some (Json.num 9), exFutFS) := by
  have hrec : fsLookup exFutFS (exC._get_cache_path "k") =
      some (.valid (cacheRecord 1000000 (Json.num 9))) := by
    simp [exFutFS, exPath, fsLookup, List.lookup]
  exact future_timestamp_is_fresh exC "k" 0 1000000 (Json.num 9) exFutFS hrec
    (by decide) (by decide)

theorem corrupt_entry_selfheals_witness :
    (exC.get "k" 0 exBadFS =
      .ok (none, ⟨exBadFS.dirs,
        exBadFS.files.filter (fun e => e.1 != exC._get_cache_path "k"), exBadFS.locked⟩)) ∧
    (exC.get "k" 5 exNoDataFS =
      .ok (none, ⟨exNoDataFS.dirs,
        exNoDataFS.files.filter (fun e => e.1 != exC._get_cache_path "k"),
        exNoDataFS.locked⟩)) := by
  have hrec : fsLookup exBadFS (exC._get_cache_path "k") = some (.invalid "not json") := by
    simp [exBadFS, exPath, fsLookup, List.lookup]
  have hrec2 : fsLookup exNoDataFS (exC._get_cache_path "k") =
      some (.valid (Json.obj [("timestamp", Json.str (isoformat 0))])) := by
    simp [exNoDataFS, exPath, fsLookup, List.lookup]
  refine ⟨corrupt_entry_selfheals exC "k" 0 exBadFS (.invalid "not json") hrec
      (Or.inl ⟨"not json", rfl⟩) (by simp [exBadFS]),
    corrupt_entry_selfheals exC "k" 5 exNoDataFS
      (.valid (Json.obj [("timestamp", Json.str (isoformat 0))])) hrec2
      (Or.inr (Or.inr (Or.inr
        ⟨[("timestamp", Json.str (isoformat 0))], isoformat 0, 0, rfl, rfl,
          parseTicks_isoformat 0, rfl⟩)))
      (by simp [exNoDataFS])⟩

theorem failing_cleanup_delete_aborts_get_witness :
    exC.get "k" 30000 exLockFS = .error .permissionError := by
  have hrec : fsLookup exLockFS (exC._get_cache_path "k") =
      some (.valid (cacheRecord 0 Json.null)) := by
    simp [exLockFS, exPath, fsLookup, List.lookup]
  exact failing_cleanup_delete_aborts_get exC "k" 30000 exLockFS
    (Or.inl ⟨0, Json.null, hrec, by decide⟩)
    (List.mem_singleton.mpr rfl)

theorem clear_removes_exactly_json_witness :
    GitHubStatsCache.clear exC exMixFS =
      .ok ⟨exMixFS.dirs,
        exMixFS.files.filter (fun e => !(e.1.1 == exC.cache_dir && strEndsWith e.1.2 ".json")),
        exMixFS.locked⟩ :=
  clear_removes_exactly_json exC exMixFS (by decide) (by decide)
    (by intro e he h1 h2; simp [exMixFS])

theorem set_overwrite_single_file_witness :
    fsLookup (fsWrite exFS0 (exC._get_cache_path "k") (.valid (cacheRecord 2 (Json.num 3))))
        (exC._get_cache_path "k") = some (.valid (cacheRecord 2 (Json.num 3))) ∧
    ((fsWrite exFS0 (exC._get_cache_path "k")
        (.valid (cacheRecord 2 (Json.num 3)))).files.filter
        (fun e => e.1 == exC._get_cache_path "k")).length = 1 ∧
    ((fsWrite exFS0 (exC._get_cache_path "k")
        (.valid (cacheRecord 2 (Json.num 3)))).files.map Prod.fst).Nodup :=
  set_overwrite_single_file exC "k" (Json.num 3) 2 exFS0 _ (by simp [exFS0]) rfl

theorem distinct_keys_isolated_witness :
    exC.get "k1" 3 exFS2 = .ok (some (Json.num 1), exFS2) ∧
    exC.get "k2" 3 exFS2 = .ok (some (Json.num 2), exFS2) ∧
    fsLookup exFS2 (exC._get_cache_path "k1") = fsLookup exFS1 (exC._get_cache_path "k1") :=
  distinct_keys_isolated exC "k1" "k2" (Json.num 1) (Json.num 2) 1 2 3 exFS0 exFS1 exFS2
    (by decide) rfl rfl (by decide) (by decide)
